import Mathlib

/-!
# Verification of the navigation dashboard's ordered-collection store

A shallow embedding of `src/API/http.ts` (the `NavigationAPI` class over a
D1/SQLite store), the HTTP routing shim in `functions/api/[[path]].ts`, and
the client reorder controller (`App.tsx` with dnd-kit plus `GroupCard.tsx`).

The store is modelled as lists of rows in table (rowid) order; `ORDER BY
order_num` is modelled by a stable insertion sort on the `order_num` key;
SQL `UPDATE ... WHERE id = ?` is a map over the rows that rewrites the
matching ones; a D1 `batch` is a left fold of such statements.  Fallible
inserts (binding an absent JSON field, foreign-key violations) return
`Except`.  Timestamps are abstract naturals: `CURRENT_TIMESTAMP` is the
store's `now` field.
-/

/-- A row of the `groups` table (columns of `CREATE TABLE groups`;
`order` is the TS-side alias of `order_num`). -/
structure GroupRow where
  id : Nat
  name : String
  order : Int
  created_at : Nat
  updated_at : Nat
deriving DecidableEq, Repr

/-- A row of the `sites` table. -/
structure SiteRow where
  id : Nat
  group_id : Nat
  name : String
  url : String
  icon : String
  description : String
  notes : String
  order : Int
  created_at : Nat
  updated_at : Nat
deriving DecidableEq, Repr

/-- The D1 database: both tables in rowid (insertion) order, the
autoincrement counters, and the current timestamp. -/
structure Store where
  groups : List GroupRow
  sites : List SiteRow
  nextGroupId : Nat
  nextSiteId : Nat
  now : Nat
deriving DecidableEq, Repr

/-- Errors an insert can raise: binding a JS `undefined` value
(D1_TYPE_ERROR / NOT NULL violation) or a foreign-key violation. -/
inductive DBErr where
  | bindUndefined
  | fkViolation
deriving DecidableEq, Repr

/-! ## `ORDER BY order_num`: a stable insertion sort on an integer key -/

/-- Insert `x` in front of the first element with a strictly larger key
(stable: ties keep table order). -/
def insertByKey (key : α → Int) (x : α) : List α → List α
  | [] => [x]
  | y :: ys => if key x ≤ key y then x :: y :: ys else y :: insertByKey key x ys

/-- Sort by the integer key; embeds SQL `ORDER BY order_num`. -/
def sortByKey (key : α → Int) : List α → List α
  | [] => []
  | x :: xs => insertByKey key x (sortByKey key xs)

theorem perm_insertByKey (key : α → Int) (x : α) :
    ∀ l : List α, (insertByKey key x l).Perm (x :: l) := by
  intro l
  induction l with
  | nil => simp [insertByKey]
  | cons y ys ih =>
    simp only [insertByKey]
    split
    · exact List.Perm.refl _
    · exact (ih.cons y).trans (List.Perm.swap x y ys)

theorem perm_sortByKey (key : α → Int) :
    ∀ l : List α, (sortByKey key l).Perm l := by
  intro l
  induction l with
  | nil => simp [sortByKey]
  | cons x xs ih =>
    exact (perm_insertByKey key x (sortByKey key xs)).trans (ih.cons x)

theorem mem_insertByKey {key : α → Int} {x z : α} {l : List α}
    (h : z ∈ insertByKey key x l) : z = x ∨ z ∈ l := by
  have := (perm_insertByKey key x l).mem_iff.mp h
  simpa using this

theorem pairwise_insertByKey (key : α → Int) (x : α) :
    ∀ l : List α, l.Pairwise (fun a b => key a ≤ key b) →
      (insertByKey key x l).Pairwise (fun a b => key a ≤ key b) := by
  intro l
  induction l with
  | nil => intro _; simp [insertByKey]
  | cons y ys ih =>
    intro hp
    rw [List.pairwise_cons] at hp
    obtain ⟨hy, hys⟩ := hp
    simp only [insertByKey]
    split
    · rename_i hxy
      refine List.pairwise_cons.mpr ⟨?_, List.pairwise_cons.mpr ⟨hy, hys⟩⟩
      intro z hz
      rcases List.mem_cons.mp hz with rfl | hz
      · exact hxy
      · exact le_trans hxy (hy z hz)
    · rename_i hxy
      have hyx : key y ≤ key x := le_of_lt (lt_of_not_le hxy)
      refine List.pairwise_cons.mpr ⟨?_, ih hys⟩
      intro z hz
      rcases mem_insertByKey hz with rfl | hz
      · exact hyx
      · exact hy z hz

theorem pairwise_sortByKey (key : α → Int) :
    ∀ l : List α, (sortByKey key l).Pairwise (fun a b => key a ≤ key b) := by
  intro l
  induction l with
  | nil => simp [sortByKey]
  | cons x xs ih => exact pairwise_insertByKey key x _ ih

/-- A sorted permutation of a strictly-sorted list is that list: the
output of `sortByKey` is pinned down whenever the keys are distinct. -/
theorem sorted_unique (key : α → Int) {l₁ l₂ : List α} (hp : l₁.Perm l₂)
    (h₁ : l₁.Pairwise (fun a b => key a ≤ key b))
    (h₂ : l₂.Pairwise (fun a b => key a < key b)) : l₁ = l₂ := by
  have hne₂ : l₂.Pairwise (fun a b => key a ≠ key b) :=
    h₂.imp (fun h => ne_of_lt h)
  have hnd₂ : (l₂.map key).Nodup := List.pairwise_map.mpr hne₂
  have hnd₁ : (l₁.map key).Nodup := ((hp.map key).nodup_iff).mpr hnd₂
  have hne₁ : l₁.Pairwise (fun a b => key a ≠ key b) := List.pairwise_map.mp hnd₁
  have h₁' : l₁.Pairwise (fun a b => key a < key b) :=
    (h₁.and hne₁).imp (fun h => lt_of_le_of_ne h.1 h.2)
  haveI : IsAntisymm α (fun a b => key a < key b) :=
    ⟨fun _ _ h h' => absurd h' (lt_asymm h)⟩
  exact List.eq_of_perm_of_sorted hp h₁' h₂

/-! ## Batch order updates

A D1 `batch` of `UPDATE <table> SET order_num = ?, updated_at =
CURRENT_TIMESTAMP WHERE id = ?` statements: each statement maps over the
table, rewriting the rows whose `id` matches; the batch folds the
statements left to right.  An `UPDATE` whose `id` matches no row succeeds
with zero changes, so the embedded batch never raises. -/

/-- One `UPDATE ... SET order_num ... WHERE id = ?` statement applied to
the whole table (`pick` reads a row's id, `setOrd` writes its
order_num/updated_at columns). -/
def runOrderStmt (pick : α → Nat) (setOrd : Int → α → α)
    (p : Nat × Int) (rows : List α) : List α :=
  rows.map (fun r => if pick r = p.1 then setOrd p.2 r else r)

/-- A whole batch of order statements, run left to right. -/
def runOrderStmts (pick : α → Nat) (setOrd : Int → α → α)
    (b : List (Nat × Int)) (rows : List α) : List α :=
  b.foldl (fun rows p => runOrderStmt pick setOrd p rows) rows

/-- The cumulative effect of the batch on a single row. -/
def applyOrders (pick : α → Nat) (setOrd : Int → α → α)
    (b : List (Nat × Int)) (r : α) : α :=
  b.foldl (fun r p => if pick r = p.1 then setOrd p.2 r else r) r

theorem runOrderStmts_eq_map (pick : α → Nat) (setOrd : Int → α → α) :
    ∀ (b : List (Nat × Int)) (rows : List α),
      runOrderStmts pick setOrd b rows = rows.map (applyOrders pick setOrd b) := by
  intro b
  induction b with
  | nil => intro rows; exact (List.map_id rows).symm
  | cons p bs ih =>
    intro rows
    show runOrderStmts pick setOrd bs (runOrderStmt pick setOrd p rows) = _
    rw [ih, runOrderStmt, List.map_map]
    rfl

theorem applyOrders_not_mem (pick : α → Nat) (setOrd : Int → α → α) :
    ∀ (b : List (Nat × Int)) (r : α), pick r ∉ b.map Prod.fst →
      applyOrders pick setOrd b r = r := by
  intro b
  induction b with
  | nil => intro r _; rfl
  | cons p bs ih =>
    intro r hr
    simp only [List.map_cons, List.mem_cons, not_or] at hr
    show applyOrders pick setOrd bs (if pick r = p.1 then setOrd p.2 r else r) = r
    rw [if_neg hr.1]
    exact ih r hr.2

/-! ## The `NavigationAPI` operations (from `src/API/http.ts`) -/

/-- A `Partial<Group>` request body (PUT /groups/{id}): fields absent
from the JSON are `none`. -/
structure GroupPatch where
  name : Option String
  order : Option Int
deriving DecidableEq, Repr

/-- A `Partial<Site>` request body (PUT /sites/{id}). -/
structure SitePatch where
  group_id : Option Nat
  name : Option String
  url : Option String
  icon : Option String
  description : Option String
  notes : Option String
  order : Option Int
deriving DecidableEq, Repr

/-- A POST /sites request body; required columns may still be absent at
runtime (`undefined`), hence `Option`. -/
structure SiteInput where
  group_id : Option Nat
  name : Option String
  url : Option String
  icon : Option String
  description : Option String
  notes : Option String
  order : Option Int
deriving DecidableEq, Repr

namespace NavigationAPI

/-- `SELECT ... FROM groups ORDER BY order_num`. -/
def getGroups (s : Store) : List GroupRow :=
  sortByKey (fun r => r.order) s.groups

/-- `SELECT ... FROM groups WHERE id = ?` via `.first()`. -/
def getGroup (s : Store) (id : Nat) : Option GroupRow :=
  s.groups.find? (fun r => r.id == id)

/-- `INSERT INTO groups (name, order_num) VALUES (?, ?) RETURNING ...`;
binding an absent field raises. -/
def createGroup (s : Store) (name : Option String) (order : Option Int) :
    Except DBErr (GroupRow × Store) :=
  match name, order with
  | some n, some o =>
    let row : GroupRow :=
      { id := s.nextGroupId, name := n, order := o,
        created_at := s.now, updated_at := s.now }
    .ok (row, { s with groups := s.groups ++ [row], nextGroupId := s.nextGroupId + 1 })
  | _, _ => .error .bindUndefined

/-- The SET clause of `updateGroup` applied to one row: fields present in
the patch, plus `updated_at = CURRENT_TIMESTAMP`. -/
def applyGroupPatch (now : Nat) (p : GroupPatch) (r : GroupRow) : GroupRow :=
  { r with
    name := p.name.getD r.name,
    order := p.order.getD r.order,
    updated_at := now }

/-- `UPDATE groups SET updated_at = CURRENT_TIMESTAMP [, name = ?][, order_num = ?]
WHERE id = ? RETURNING ...`; returns `results[0]` or `null`. -/
def updateGroup (s : Store) (id : Nat) (p : GroupPatch) :
    Option GroupRow × Store :=
  let returned := (s.groups.filter (fun r => r.id == id)).map (applyGroupPatch s.now p)
  (returned.head?,
   { s with groups := s.groups.map (fun r => if r.id = id then applyGroupPatch s.now p r else r) })

/-- `DELETE FROM groups WHERE id = ?`; `result.success` is statement
success, `true` even when no row matches.  The schema's `ON DELETE
CASCADE` removes the group's sites. -/
def deleteGroup (s : Store) (id : Nat) : Bool × Store :=
  (true,
   { s with
     groups := s.groups.filter (fun r => r.id != id),
     sites := s.sites.filter (fun t => t.group_id != id) })

/-- `SELECT ... FROM sites [WHERE group_id = ?] ORDER BY order_num`. -/
def getSites (s : Store) (groupId : Option Nat) : List SiteRow :=
  sortByKey (fun t => t.order)
    (match groupId with
     | some g => s.sites.filter (fun t => t.group_id == g)
     | none => s.sites)

/-- `SELECT ... FROM sites WHERE id = ?` via `.first()`. -/
def getSite (s : Store) (id : Nat) : Option SiteRow :=
  s.sites.find? (fun t => t.id == id)

/-- `INSERT INTO sites ... RETURNING ...`: `icon`, `description` and
`notes` default to `""` (`site.icon || ""`); required columns absent at
runtime raise on bind; a `group_id` that references no group violates
the foreign key. -/
def createSite (s : Store) (inp : SiteInput) : Except DBErr (SiteRow × Store) :=
  match inp.group_id, inp.name, inp.url, inp.order with
  | some g, some n, some u, some o =>
    if s.groups.any (fun r => r.id == g) then
      let row : SiteRow :=
        { id := s.nextSiteId, group_id := g, name := n, url := u,
          icon := inp.icon.getD "", description := inp.description.getD "",
          notes := inp.notes.getD "", order := o,
          created_at := s.now, updated_at := s.now }
      .ok (row, { s with sites := s.sites ++ [row], nextSiteId := s.nextSiteId + 1 })
    else .error .fkViolation
  | _, _, _, _ => .error .bindUndefined

/-- The SET clause of `updateSite` applied to one row. -/
def applySitePatch (now : Nat) (p : SitePatch) (t : SiteRow) : SiteRow :=
  { t with
    group_id := p.group_id.getD t.group_id,
    name := p.name.getD t.name,
    url := p.url.getD t.url,
    icon := p.icon.getD t.icon,
    description := p.description.getD t.description,
    notes := p.notes.getD t.notes,
    order := p.order.getD t.order,
    updated_at := now }

/-- `UPDATE sites SET updated_at = CURRENT_TIMESTAMP [, ...] WHERE id = ?
RETURNING ...`. -/
def updateSite (s : Store) (id : Nat) (p : SitePatch) :
    Option SiteRow × Store :=
  let returned := (s.sites.filter (fun t => t.id == id)).map (applySitePatch s.now p)
  (returned.head?,
   { s with sites := s.sites.map (fun t => if t.id = id then applySitePatch s.now p t else t) })

/-- `DELETE FROM sites WHERE id = ?`. -/
def deleteSite (s : Store) (id : Nat) : Bool × Store :=
  (true, { s with sites := s.sites.filter (fun t => t.id != id) })

/-- The order_num/updated_at rewrite of one group-order statement. -/
def setGroupOrd (now : Nat) (o : Int) (r : GroupRow) : GroupRow :=
  { r with order := o, updated_at := now }

/-- The order_num/updated_at rewrite of one site-order statement. -/
def setSiteOrd (now : Nat) (o : Int) (t : SiteRow) : SiteRow :=
  { t with order := o, updated_at := now }

/-- `db.batch` of `UPDATE groups SET order_num = ?, updated_at =
CURRENT_TIMESTAMP WHERE id = ?` over the request list, `.then(() =>
true).catch(() => false)`: the embedded statements never raise, so the
call reports `true`. -/
def updateGroupOrder (s : Store) (b : List (Nat × Int)) : Bool × Store :=
  (true,
   { s with groups := runOrderStmts (fun r => r.id) (setGroupOrd s.now) b s.groups })

/-- `db.batch` of site order updates, same shape. -/
def updateSiteOrder (s : Store) (b : List (Nat × Int)) : Bool × Store :=
  (true,
   { s with sites := runOrderStmts (fun t => t.id) (setSiteOrd s.now) b s.sites })

end NavigationAPI

/-! ## The reorder contract

A batch whose ids enumerate a scope exactly once and whose order values
are `0..n-1` in listing order pins the subsequent `ORDER BY order_num`
read to the submitted order. -/

theorem applyOrders_zip (pick : α → Nat) (setOrd : Int → α → α)
    (hid : ∀ o r, pick (setOrd o r) = pick r) :
    ∀ (rows0 : List α) (b : List (Nat × Int)) (m : Nat),
      rows0.map pick = b.map Prod.fst →
      (b.map Prod.fst).Nodup →
      b.map Prod.snd = (List.range' m b.length).map (fun (k : Nat) => (k : Int)) →
      rows0.map (applyOrders pick setOrd b)
        = List.zipWith (fun r (k : Nat) => setOrd (k : Int) r) rows0 (List.range' m rows0.length) := by
  intro rows0
  induction rows0 with
  | nil =>
    intro b m hids _ _
    have hb : b = [] := by
      cases b with
      | nil => rfl
      | cons p bs => simp at hids
    subst hb; rfl
  | cons r rest ih =>
    intro b m hids hnd hords
    cases b with
    | nil => simp at hids
    | cons p bs =>
      simp only [List.map_cons, List.cons.injEq] at hids
      obtain ⟨hr, hrest⟩ := hids
      simp only [List.map_cons, List.nodup_cons] at hnd
      obtain ⟨hp1, hnd'⟩ := hnd
      rw [List.length_cons, List.range'_succ, List.map_cons, List.map_cons] at hords
      injection hords with ho hords'
      have hhead : applyOrders pick setOrd (p :: bs) r = setOrd p.2 r := by
        show applyOrders pick setOrd bs (if pick r = p.1 then setOrd p.2 r else r) = _
        rw [if_pos hr]
        exact applyOrders_not_mem pick setOrd bs _ (by rw [hid, hr]; exact hp1)
      have htail : rest.map (applyOrders pick setOrd (p :: bs))
          = rest.map (applyOrders pick setOrd bs) := by
        refine List.map_congr_left ?_
        intro x hx
        show applyOrders pick setOrd bs (if pick x = p.1 then setOrd p.2 x else x) = _
        have : pick x ≠ p.1 := by
          intro hcontra
          exact hp1 (hcontra ▸ (hrest ▸ List.mem_map_of_mem pick hx))
        rw [if_neg this]
      rw [List.length_cons, List.range'_succ]
      show applyOrders pick setOrd (p :: bs) r :: rest.map (applyOrders pick setOrd (p :: bs))
          = setOrd (m : Int) r :: List.zipWith _ rest (List.range' (m + 1) rest.length)
      rw [hhead, ho, htail, ih bs (m + 1) hrest hnd' hords']

theorem zipWith_setOrd_map_pick (pick : α → Nat) (setOrd : Int → α → α)
    (hid : ∀ o r, pick (setOrd o r) = pick r) :
    ∀ (rows0 : List α) (m : Nat),
      (List.zipWith (fun r (k : Nat) => setOrd (k : Int) r) rows0 (List.range' m rows0.length)).map pick
        = rows0.map pick := by
  intro rows0
  induction rows0 with
  | nil => intro m; rfl
  | cons r rest ih =>
    intro m
    rw [List.length_cons, List.range'_succ]
    show pick (setOrd (m : Int) r) :: _ = _
    rw [hid, ih (m + 1)]
    rfl

theorem zipWith_setOrd_map_key (key : α → Int) (setOrd : Int → α → α)
    (hkey : ∀ o r, key (setOrd o r) = o) :
    ∀ (rows0 : List α) (m : Nat),
      (List.zipWith (fun r (k : Nat) => setOrd (k : Int) r) rows0 (List.range' m rows0.length)).map key
        = (List.range' m rows0.length).map (fun (k : Nat) => (k : Int)) := by
  intro rows0
  induction rows0 with
  | nil => intro m; rfl
  | cons r rest ih =>
    intro m
    rw [List.length_cons, List.range'_succ, List.map_cons]
    show key (setOrd (m : Int) r) :: _ = _
    rw [hkey, ih (m + 1)]

/-- After a batch that assigns orders `0..n-1` across exactly the rows of
the scope, the sorted listing is the batch's id list. -/
theorem reorder_listing (key : α → Int) (pick : α → Nat) (setOrd : Int → α → α)
    (hkey : ∀ o r, key (setOrd o r) = o)
    (hid : ∀ o r, pick (setOrd o r) = pick r)
    (rows rows0 : List α) (b : List (Nat × Int))
    (hperm : rows.Perm rows0)
    (hids : rows0.map pick = b.map Prod.fst)
    (hnd : (b.map Prod.fst).Nodup)
    (hords : b.map Prod.snd = (List.range b.length).map (fun (k : Nat) => (k : Int))) :
    (sortByKey key (runOrderStmts pick setOrd b rows)).map pick = b.map Prod.fst := by
  have hords' : b.map Prod.snd = (List.range' 0 b.length).map (fun (k : Nat) => (k : Int)) := by
    rw [← List.range_eq_range']; exact hords
  have hT := applyOrders_zip pick setOrd hid rows0 b 0 hids hnd hords'
  have hperm2 : (sortByKey key (runOrderStmts pick setOrd b rows)).Perm
      (List.zipWith (fun r (k : Nat) => setOrd (k : Int) r) rows0 (List.range' 0 rows0.length)) := by
    have hX : runOrderStmts pick setOrd b rows = rows.map (applyOrders pick setOrd b) :=
      runOrderStmts_eq_map pick setOrd b rows
    have p2 : (runOrderStmts pick setOrd b rows).Perm (rows0.map (applyOrders pick setOrd b)) := by
      rw [hX]; exact hperm.map _
    have p3 := (perm_sortByKey key (runOrderStmts pick setOrd b rows)).trans p2
    rw [hT] at p3
    exact p3
  have hsorted := pairwise_sortByKey key (runOrderStmts pick setOrd b rows)
  have hTstrict : (List.zipWith (fun r (k : Nat) => setOrd (k : Int) r) rows0
      (List.range' 0 rows0.length)).Pairwise (fun a b => key a < key b) := by
    have hkeys := zipWith_setOrd_map_key key setOrd hkey rows0 0
    have hint : ((List.range' 0 rows0.length).map (fun (k : Nat) => (k : Int))).Pairwise (· < ·) :=
      List.pairwise_map.mpr ((List.pairwise_lt_range' 0 rows0.length).imp
        (fun h => Int.ofNat_lt.mpr h))
    rw [← hkeys] at hint
    exact List.pairwise_map.mp hint
  have heq := sorted_unique key hperm2 hsorted hTstrict
  rw [heq, zipWith_setOrd_map_pick pick setOrd hid rows0 0, hids]

/-- Any per-row attribute untouched by the order rewrite survives the
whole batch (used for ids and for a site's `group_id`). -/
theorem applyOrders_preserves (pick : α → Nat) (setOrd : Int → α → α)
    (h : α → β) (hh : ∀ o r, h (setOrd o r) = h r) :
    ∀ (b : List (Nat × Int)) (r : α), h (applyOrders pick setOrd b r) = h r := by
  intro b
  induction b with
  | nil => intro r; rfl
  | cons p bs ih =>
    intro r
    show h (applyOrders pick setOrd bs (if pick r = p.1 then setOrd p.2 r else r)) = h r
    rw [ih]
    split
    · exact hh p.2 r
    · rfl

/-- An `UPDATE ... WHERE id = ?` whose id matches no row leaves the table
unchanged (and still succeeds). -/
theorem runOrderStmt_no_match (pick : α → Nat) (setOrd : Int → α → α)
    (i : Nat) (o : Int) (rows : List α) (hno : ∀ r ∈ rows, pick r ≠ i) :
    runOrderStmt pick setOrd (i, o) rows = rows := by
  unfold runOrderStmt
  have : rows.map (fun r => if pick r = (i, o).1 then setOrd (i, o).2 r else r)
      = rows.map id := by
    refine List.map_congr_left ?_
    intro r hr
    exact if_neg (hno r hr)
  rw [this, List.map_id]

/-- Batch rewrites preserve every row's id. -/
theorem runOrderStmts_ids (pick : α → Nat) (setOrd : Int → α → α)
    (hid : ∀ o r, pick (setOrd o r) = pick r)
    (b : List (Nat × Int)) (rows : List α) :
    (runOrderStmts pick setOrd b rows).map pick = rows.map pick := by
  rw [runOrderStmts_eq_map, List.map_map]
  refine List.map_congr_left ?_
  intro r _
  exact applyOrders_preserves pick setOrd pick hid b r

/-- Filtering a site-order batch result by `group_id` commutes with the
batch, because the order rewrite never touches `group_id`. -/
theorem runOrderStmts_filter_group (g : Nat) (now : Nat)
    (b : List (Nat × Int)) (rows : List SiteRow) :
    (runOrderStmts (fun t => t.id) (NavigationAPI.setSiteOrd now) b rows).filter
        (fun t => t.group_id == g)
      = runOrderStmts (fun t => t.id) (NavigationAPI.setSiteOrd now) b
          (rows.filter (fun t => t.group_id == g)) := by
  rw [runOrderStmts_eq_map, runOrderStmts_eq_map, List.filter_map]
  congr 1
  refine List.filter_congr ?_
  intro t _
  have := applyOrders_preserves (fun t : SiteRow => t.id) (NavigationAPI.setSiteOrd now)
    (fun t => t.group_id) (fun _ _ => rfl) b t
  simp only [Function.comp]
  rw [this]

/-- C1: for both scopes (the global group list, and the sites of one
group), a successful reorder whose batch lists exactly the scope's
membership with order_num values `0..n-1` makes the subsequent ordered
listing (`GET /groups`, resp. `GET /sites?groupId=`) return the entities
in exactly the submitted order. -/
theorem reorder_then_list_matches :
    (∀ (s : Store) (b : List (Nat × Int)) (rows0 : List GroupRow),
      s.groups.Perm rows0 →
      rows0.map GroupRow.id = b.map Prod.fst →
      (b.map Prod.fst).Nodup →
      b.map Prod.snd = (List.range b.length).map (fun (k : Nat) => (k : Int)) →
      (NavigationAPI.updateGroupOrder s b).1 = true ∧
      (NavigationAPI.getGroups (NavigationAPI.updateGroupOrder s b).2).map GroupRow.id
        = b.map Prod.fst)
    ∧
    (∀ (s : Store) (g : Nat) (b : List (Nat × Int)) (rows0 : List SiteRow),
      (s.sites.filter (fun t => t.group_id == g)).Perm rows0 →
      rows0.map SiteRow.id = b.map Prod.fst →
      (b.map Prod.fst).Nodup →
      b.map Prod.snd = (List.range b.length).map (fun (k : Nat) => (k : Int)) →
      (NavigationAPI.updateSiteOrder s b).1 = true ∧
      (NavigationAPI.getSites (NavigationAPI.updateSiteOrder s b).2 (some g)).map SiteRow.id
        = b.map Prod.fst) := by
  constructor
  · intro s b rows0 hperm hids hnd hords
    refine ⟨rfl, ?_⟩
    exact reorder_listing (fun r : GroupRow => r.order) (fun r : GroupRow => r.id)
      (NavigationAPI.setGroupOrd s.now) (fun _ _ => rfl) (fun _ _ => rfl)
      s.groups rows0 b hperm hids hnd hords
  · intro s g b rows0 hperm hids hnd hords
    refine ⟨rfl, ?_⟩
    show (sortByKey (fun t => t.order)
        ((runOrderStmts (fun t => t.id) (NavigationAPI.setSiteOrd s.now) b s.sites).filter
          (fun t => t.group_id == g))).map SiteRow.id = b.map Prod.fst
    rw [runOrderStmts_filter_group]
    exact reorder_listing (fun t : SiteRow => t.order) (fun t : SiteRow => t.id)
      (NavigationAPI.setSiteOrd s.now) (fun _ _ => rfl) (fun _ _ => rfl)
      (s.sites.filter (fun t => t.group_id == g)) rows0 b hperm hids hnd hords

/-- A small concrete store: two groups, group 1 owning sites 1 and 2,
group 2 owning site 3. -/
def sampleStore : Store :=
  { groups := [⟨1, "A", 0, 10, 10⟩, ⟨2, "B", 1, 10, 10⟩],
    sites := [⟨1, 1, "G", "https://g", "", "", "", 0, 10, 10⟩,
              ⟨2, 1, "H", "https://h", "", "", "", 1, 10, 10⟩,
              ⟨3, 2, "K", "https://k", "", "", "", 0, 10, 10⟩],
    nextGroupId := 3, nextSiteId := 4, now := 99 }

/-- Witness for C1 on `sampleStore`: swapping the two groups, and the two
sites of group 1. -/
theorem reorder_then_list_matches_witness :
    ((NavigationAPI.updateGroupOrder sampleStore [(2, 0), (1, 1)]).1 = true ∧
     (NavigationAPI.getGroups
        (NavigationAPI.updateGroupOrder sampleStore [(2, 0), (1, 1)]).2).map GroupRow.id
       = [2, 1]) ∧
    ((NavigationAPI.updateSiteOrder sampleStore [(2, 0), (1, 1)]).1 = true ∧
     (NavigationAPI.getSites
        (NavigationAPI.updateSiteOrder sampleStore [(2, 0), (1, 1)]).2 (some 1)).map SiteRow.id
       = [2, 1]) := by
  constructor
  · have h := reorder_then_list_matches.1 sampleStore [(2, 0), (1, 1)]
      [⟨2, "B", 1, 10, 10⟩, ⟨1, "A", 0, 10, 10⟩]
      (by decide) (by decide) (by decide) (by decide)
    exact ⟨h.1, h.2.trans (by decide)⟩
  · have h := reorder_then_list_matches.2 sampleStore 1 [(2, 0), (1, 1)]
      [⟨2, 1, "H", "https://h", "", "", "", 1, 10, 10⟩,
       ⟨1, 1, "G", "https://g", "", "", "", 0, 10, 10⟩]
      (by decide) (by decide) (by decide) (by decide)
    exact ⟨h.1, h.2.trans (by decide)⟩

/-- C3 counterexample: a batch containing an assignment for the absent id
99 still reports success, and the other assignment of the batch is
applied — the store is mutated.  (An `UPDATE` matching no row is not an
error for the underlying store, so `db.batch` resolves and the
`.catch(() => false)` branch is never taken.) -/
theorem updateOrder_missing_id_cex :
    (NavigationAPI.updateGroupOrder sampleStore [(1, 5), (99, 0)]).1 = true ∧
    (NavigationAPI.updateGroupOrder sampleStore [(1, 5), (99, 0)]).2.groups
      ≠ sampleStore.groups := by
  decide

/-- C3 amended: the batch always reports success, and an assignment whose
id matches no row is silently ignored while the remaining assignments are
still applied (no all-or-nothing failure on a missing id). -/
theorem updateOrder_missing_id_ignored :
    (∀ (s : Store) (b : List (Nat × Int)),
      (NavigationAPI.updateGroupOrder s b).1 = true ∧
      (NavigationAPI.updateSiteOrder s b).1 = true)
    ∧
    (∀ (s : Store) (b : List (Nat × Int)) (i : Nat) (o : Int),
      s.groups.all (fun r => r.id != i) = true →
      NavigationAPI.updateGroupOrder s (b ++ [(i, o)])
        = NavigationAPI.updateGroupOrder s b)
    ∧
    (∀ (s : Store) (b : List (Nat × Int)) (i : Nat) (o : Int),
      s.sites.all (fun t => t.id != i) = true →
      NavigationAPI.updateSiteOrder s (b ++ [(i, o)])
        = NavigationAPI.updateSiteOrder s b) := by
  refine ⟨fun s b => ⟨rfl, rfl⟩, ?_, ?_⟩
  · intro s b i o hall
    have hno : ∀ r ∈ s.groups, r.id ≠ i := by
      intro r hr
      have := List.all_eq_true.mp hall r hr
      simpa using this
    have hlist : runOrderStmts (fun r : GroupRow => r.id) (NavigationAPI.setGroupOrd s.now)
        (b ++ [(i, o)]) s.groups
        = runOrderStmts (fun r : GroupRow => r.id) (NavigationAPI.setGroupOrd s.now) b s.groups := by
      unfold runOrderStmts
      rw [List.foldl_append]
      refine runOrderStmt_no_match _ _ i o _ ?_
      intro r hr
      rw [show List.foldl (fun rows p => runOrderStmt (fun r : GroupRow => r.id)
            (NavigationAPI.setGroupOrd s.now) p rows) s.groups b
          = runOrderStmts (fun r : GroupRow => r.id) (NavigationAPI.setGroupOrd s.now) b s.groups
          from rfl, runOrderStmts_eq_map] at hr
      obtain ⟨r0, hr0, rfl⟩ := List.mem_map.mp hr
      have hpres : (applyOrders (fun r : GroupRow => r.id) (NavigationAPI.setGroupOrd s.now)
          b r0).id = r0.id :=
        applyOrders_preserves (fun r : GroupRow => r.id) (NavigationAPI.setGroupOrd s.now)
          (fun r : GroupRow => r.id) (fun _ _ => rfl) b r0
      rw [hpres]
      exact hno r0 hr0
    unfold NavigationAPI.updateGroupOrder
    rw [hlist]
  · intro s b i o hall
    have hno : ∀ t ∈ s.sites, t.id ≠ i := by
      intro t ht
      have := List.all_eq_true.mp hall t ht
      simpa using this
    have hlist : runOrderStmts (fun t : SiteRow => t.id) (NavigationAPI.setSiteOrd s.now)
        (b ++ [(i, o)]) s.sites
        = runOrderStmts (fun t : SiteRow => t.id) (NavigationAPI.setSiteOrd s.now) b s.sites := by
      unfold runOrderStmts
      rw [List.foldl_append]
      refine runOrderStmt_no_match _ _ i o _ ?_
      intro t ht
      rw [show List.foldl (fun rows p => runOrderStmt (fun t : SiteRow => t.id)
            (NavigationAPI.setSiteOrd s.now) p rows) s.sites b
          = runOrderStmts (fun t : SiteRow => t.id) (NavigationAPI.setSiteOrd s.now) b s.sites
          from rfl, runOrderStmts_eq_map] at ht
      obtain ⟨t0, ht0, rfl⟩ := List.mem_map.mp ht
      have hpres : (applyOrders (fun t : SiteRow => t.id) (NavigationAPI.setSiteOrd s.now)
          b t0).id = t0.id :=
        applyOrders_preserves (fun t : SiteRow => t.id) (NavigationAPI.setSiteOrd s.now)
          (fun t : SiteRow => t.id) (fun _ _ => rfl) b t0
      rw [hpres]
      exact hno t0 ht0
    unfold NavigationAPI.updateSiteOrder
    rw [hlist]

/-- Witness for the amended C3 at a concrete input: appending an
assignment for absent ids changes nothing, and both calls succeed. -/
theorem updateOrder_missing_id_ignored_witness :
    ((NavigationAPI.updateGroupOrder sampleStore [(1, 5)]).1 = true ∧
     (NavigationAPI.updateSiteOrder sampleStore [(1, 5)]).1 = true) ∧
    NavigationAPI.updateGroupOrder sampleStore ([(1, 5)] ++ [(99, 0)])
      = NavigationAPI.updateGroupOrder sampleStore [(1, 5)] ∧
    NavigationAPI.updateSiteOrder sampleStore ([(1, 5)] ++ [(77, 0)])
      = NavigationAPI.updateSiteOrder sampleStore [(1, 5)] :=
  ⟨updateOrder_missing_id_ignored.1 sampleStore [(1, 5)],
   updateOrder_missing_id_ignored.2.1 sampleStore [(1, 5)] 99 0 (by decide),
   updateOrder_missing_id_ignored.2.2 sampleStore [(1, 5)] 77 0 (by decide)⟩

/-- The freshly initialised store: both tables empty. -/
def emptyStore : Store :=
  { groups := [], sites := [], nextGroupId := 1, nextSiteId := 1, now := 0 }

/-- C5 counterexample: creating a group in the empty store with
`order_num` omitted does not store a row with the append position 0 — the
insert fails on binding the absent value, and nothing is stored. -/
theorem createGroup_omitted_order_cex :
    NavigationAPI.createGroup emptyStore (some "Tools") none
      = Except.error DBErr.bindUndefined :=
  rfl

/-- C5 amended: `createGroup` stores exactly the caller-supplied
order_num — there is no append-position defaulting anywhere in the API —
and a body omitting `order_num` (or `name`) fails the insert, storing
nothing. -/
theorem createGroup_stores_given_order :
    ∀ (s : Store) (n : String) (o : Int),
      (NavigationAPI.createGroup s (some n) (some o)).map (fun r => r.1.order)
        = Except.ok o ∧
      (NavigationAPI.createGroup s (some n) (some o)).map (fun r => r.2.groups.length)
        = Except.ok (s.groups.length + 1) ∧
      NavigationAPI.createGroup s (some n) none = Except.error DBErr.bindUndefined ∧
      NavigationAPI.createGroup s none (some o) = Except.error DBErr.bindUndefined := by
  intro s n o
  refine ⟨rfl, ?_, rfl, rfl⟩
  simp only [NavigationAPI.createGroup, Except.map, List.length_append, List.length_cons,
    List.length_nil]

/-- C6: after `deleteGroup g`, the delete has reported success, no site
row with `group_id = g` remains (the schema's cascade), and listing the
sites of scope `g` returns the empty list. -/
theorem deleteGroup_cascade :
    ∀ (s : Store) (g : Nat),
      (NavigationAPI.deleteGroup s g).1 = true ∧
      (NavigationAPI.deleteGroup s g).2.sites.all (fun t => t.group_id != g) = true ∧
      NavigationAPI.getSites (NavigationAPI.deleteGroup s g).2 (some g) = [] := by
  intro s g
  refine ⟨rfl, ?_, ?_⟩
  · refine List.all_eq_true.mpr ?_
    intro t ht
    exact (List.mem_filter.mp ht).2
  · show sortByKey (fun t => t.order)
      ((s.sites.filter (fun t => t.group_id != g)).filter (fun t => t.group_id == g)) = []
    rw [List.filter_filter (fun t => t.group_id != g) s.sites]
    have : s.sites.filter (fun a => (a.group_id == g) && (a.group_id != g)) = [] := by
      refine List.filter_eq_nil_iff.mpr ?_
      intro t _
      simp [bne]
    rw [this]
    rfl

/-- C7 counterexample: deleting an id that exists nowhere still reports
`success: true` — `result.success` is statement success, not a row
count. -/
theorem delete_missing_id_cex :
    (NavigationAPI.deleteGroup emptyStore 1).1 = true ∧
    (NavigationAPI.deleteSite emptyStore 1).1 = true := by
  decide

/-- C7 amended: on an id absent from the store, `getGroup`/`getSite`
return null, `updateGroup`/`updateSite` return null and mutate nothing,
`deleteGroup`/`deleteSite` mutate nothing but still report `success:
true`, and none of these operations throws. -/
theorem missing_id_soft_failure :
    ∀ (s : Store) (i : Nat) (p : GroupPatch) (q : SitePatch),
      s.groups.all (fun r => r.id != i) = true →
      s.sites.all (fun t => t.id != i) = true →
      s.sites.all (fun t => t.group_id != i) = true →
      NavigationAPI.getGroup s i = none ∧
      NavigationAPI.getSite s i = none ∧
      NavigationAPI.updateGroup s i p = (none, s) ∧
      NavigationAPI.updateSite s i q = (none, s) ∧
      NavigationAPI.deleteGroup s i = (true, s) ∧
      NavigationAPI.deleteSite s i = (true, s) := by
  intro s i p q hg hs hsg
  have hgne : ∀ r ∈ s.groups, r.id ≠ i := by
    intro r hr; simpa using List.all_eq_true.mp hg r hr
  have hsne : ∀ t ∈ s.sites, t.id ≠ i := by
    intro t ht; simpa using List.all_eq_true.mp hs t ht
  have hsgne : ∀ t ∈ s.sites, t.group_id ≠ i := by
    intro t ht; simpa using List.all_eq_true.mp hsg t ht
  refine ⟨?_, ?_, ?_, ?_, ?_, ?_⟩
  · refine List.find?_eq_none.mpr ?_
    intro r hr
    simpa using hgne r hr
  · refine List.find?_eq_none.mpr ?_
    intro t ht
    simpa using hsne t ht
  · have h1 : s.groups.filter (fun r => r.id == i) = [] := by
      refine List.filter_eq_nil_iff.mpr ?_
      intro r hr
      simpa using hgne r hr
    have h2 : s.groups.map
        (fun r => if r.id = i then NavigationAPI.applyGroupPatch s.now p r else r)
        = s.groups := by
      have := List.map_congr_left (l := s.groups)
        (f := fun r => if r.id = i then NavigationAPI.applyGroupPatch s.now p r else r)
        (g := id) (fun r hr => if_neg (hgne r hr))
      rw [this, List.map_id]
    have hdef : NavigationAPI.updateGroup s i p
        = (((s.groups.filter (fun r => r.id == i)).map
              (NavigationAPI.applyGroupPatch s.now p)).head?,
           { s with groups := (s.groups.map (fun r => if r.id = i then NavigationAPI.applyGroupPatch s.now p r else r)) }) := rfl
    rw [hdef, h1, h2]
    rfl
  · have h1 : s.sites.filter (fun t => t.id == i) = [] := by
      refine List.filter_eq_nil_iff.mpr ?_
      intro t ht
      simpa using hsne t ht
    have h2 : s.sites.map
        (fun t => if t.id = i then NavigationAPI.applySitePatch s.now q t else t)
        = s.sites := by
      have := List.map_congr_left (l := s.sites)
        (f := fun t => if t.id = i then NavigationAPI.applySitePatch s.now q t else t)
        (g := id) (fun t ht => if_neg (hsne t ht))
      rw [this, List.map_id]
    have hdef : NavigationAPI.updateSite s i q
        = (((s.sites.filter (fun t => t.id == i)).map
              (NavigationAPI.applySitePatch s.now q)).head?,
           { s with sites := (s.sites.map (fun t => if t.id = i then NavigationAPI.applySitePatch s.now q t else t)) }) := rfl
    rw [hdef, h1, h2]
    rfl
  · have h3 : s.groups.filter (fun r => r.id != i) = s.groups :=
      List.filter_eq_self.mpr (fun r hr => by simpa using hgne r hr)
    have h4 : s.sites.filter (fun t => t.group_id != i) = s.sites :=
      List.filter_eq_self.mpr (fun t ht => by simpa using hsgne t ht)
    have hdef : NavigationAPI.deleteGroup s i
        = (true, { s with groups := (s.groups.filter (fun r => r.id != i)), sites := (s.sites.filter (fun t => t.group_id != i)) }) := rfl
    rw [hdef, h3, h4]
  · have h5 : s.sites.filter (fun t => t.id != i) = s.sites :=
      List.filter_eq_self.mpr (fun t ht => by simpa using hsne t ht)
    have hdef : NavigationAPI.deleteSite s i
        = (true, { s with sites := (s.sites.filter (fun t => t.id != i)) }) := rfl
    rw [hdef, h5]

/-- Witness for the amended C7 at id 42 on `sampleStore`. -/
theorem missing_id_soft_failure_witness :
    NavigationAPI.getGroup sampleStore 42 = none ∧
    NavigationAPI.getSite sampleStore 42 = none ∧
    NavigationAPI.updateGroup sampleStore 42 ⟨some "X", none⟩ = (none, sampleStore) ∧
    NavigationAPI.updateSite sampleStore 42 ⟨none, none, none, none, none, none, some 3⟩
      = (none, sampleStore) ∧
    NavigationAPI.deleteGroup sampleStore 42 = (true, sampleStore) ∧
    NavigationAPI.deleteSite sampleStore 42 = (true, sampleStore) :=
  missing_id_soft_failure sampleStore 42 ⟨some "X", none⟩
    ⟨none, none, none, none, none, none, some 3⟩ (by decide) (by decide) (by decide)

/-- C8 counterexample: a create with an empty required field succeeds and
mutates the store — there is no validation.  An empty-name group is
inserted, and an empty-name, empty-url site is inserted under group 1. -/
theorem create_empty_fields_cex :
    (NavigationAPI.createGroup emptyStore (some "") (some 0)).map
        (fun r => (r.1.name, r.2.groups.length)) = Except.ok ("", 1) ∧
    (NavigationAPI.createSite sampleStore
        ⟨some 1, some "", some "", none, none, none, some 0⟩).map
        (fun r => (r.1.name, r.1.url, r.2.sites.length)) = Except.ok ("", "", 4) := by
  constructor
  · rfl
  · rfl

/-- C8 amended: the API validates nothing about `name`/`url` — empty
strings satisfy the NOT NULL columns and are stored as given; the only
create-time failures are binding an absent field and the site
foreign-key check. -/
theorem no_validation_on_empty_fields :
    ∀ (s : Store) (g : Nat) (o : Int),
      (NavigationAPI.createGroup s (some "") (some o)).map
          (fun r => (r.1.name, r.2.groups.length))
        = Except.ok ("", s.groups.length + 1) ∧
      (s.groups.any (fun r => r.id == g) = true →
        (NavigationAPI.createSite s ⟨some g, some "", some "", none, none, none, some o⟩).map
            (fun r => (r.1.name, r.1.url, r.2.sites.length))
          = Except.ok ("", "", s.sites.length + 1)) := by
  intro s g o
  constructor
  · simp only [NavigationAPI.createGroup, Except.map, List.length_append, List.length_cons,
      List.length_nil]
  · intro hg
    unfold NavigationAPI.createSite
    simp only [hg, if_pos]
    simp only [Except.map, List.length_append, List.length_cons, List.length_nil]

/-- Witness for the amended C8 on `sampleStore` with group 1. -/
theorem no_validation_on_empty_fields_witness :
    (NavigationAPI.createGroup sampleStore (some "") (some 7)).map
        (fun r => (r.1.name, r.2.groups.length)) = Except.ok ("", 3) ∧
    (NavigationAPI.createSite sampleStore
        ⟨some 1, some "", some "", none, none, none, some 7⟩).map
        (fun r => (r.1.name, r.1.url, r.2.sites.length)) = Except.ok ("", "", 4) :=
  ⟨(no_validation_on_empty_fields sampleStore 1 7).1,
   (no_validation_on_empty_fields sampleStore 1 7).2 (by decide)⟩

/-- With unique ids, filtering the table on an existing id yields exactly
that row. -/
theorem filter_eq_single (pick : α → Nat) :
    ∀ (l : List α) (i : Nat) (r : α),
      (l.map pick).Nodup → r ∈ l → pick r = i →
      l.filter (fun x => pick x == i) = [r] := by
  intro l
  induction l with
  | nil => intro i r _ hm _; cases hm
  | cons y ys ih =>
    intro i r hnd hm hr
    rw [List.map_cons, List.nodup_cons] at hnd
    obtain ⟨hy, hnd'⟩ := hnd
    rcases List.mem_cons.mp hm with rfl | hm'
    · rw [List.filter_cons, if_pos (by simp [hr])]
      have hrest : ys.filter (fun x => pick x == i) = [] := by
        refine List.filter_eq_nil_iff.mpr ?_
        intro x hx
        have : pick x ≠ i := by
          intro hcontra
          exact hy (hr ▸ hcontra ▸ List.mem_map_of_mem pick hx)
        simpa using this
      rw [hrest]
    · have hyne : pick y ≠ i := by
        intro hcontra
        exact hy (hcontra ▸ hr ▸ List.mem_map_of_mem pick hm')
      rw [List.filter_cons, if_neg (by simpa using hyne)]
      exact ih i r hnd' hm' hr

/-- C10: partial updates on an existing row change exactly the fields
present in the patch plus `updated_at`: the call returns the patched row,
ids are never rewritten, rows with other ids survive unchanged, an empty
patch still performs the update (rewriting only `updated_at`) and returns
the row; and the patch semantics itself keeps every omitted field. -/
theorem updatePartial_frame :
    (∀ (s : Store) (i : Nat) (p : GroupPatch) (r : GroupRow),
      (s.groups.map GroupRow.id).Nodup → r ∈ s.groups → r.id = i →
      (NavigationAPI.updateGroup s i p).1 = some (NavigationAPI.applyGroupPatch s.now p r) ∧
      (NavigationAPI.updateGroup s i p).2.groups.map GroupRow.id
        = s.groups.map GroupRow.id ∧
      (∀ x ∈ s.groups, x.id ≠ i → x ∈ (NavigationAPI.updateGroup s i p).2.groups) ∧
      (NavigationAPI.updateGroup s i ⟨none, none⟩).1 = some { r with updated_at := s.now })
    ∧
    (∀ (now : Nat) (p : GroupPatch) (x : GroupRow),
      (NavigationAPI.applyGroupPatch now p x).id = x.id ∧
      (NavigationAPI.applyGroupPatch now p x).created_at = x.created_at ∧
      (NavigationAPI.applyGroupPatch now p x).updated_at = now ∧
      (p.name = none → (NavigationAPI.applyGroupPatch now p x).name = x.name) ∧
      (∀ v, p.name = some v → (NavigationAPI.applyGroupPatch now p x).name = v) ∧
      (p.order = none → (NavigationAPI.applyGroupPatch now p x).order = x.order) ∧
      (∀ v, p.order = some v → (NavigationAPI.applyGroupPatch now p x).order = v))
    ∧
    (∀ (s : Store) (i : Nat) (q : SitePatch) (t : SiteRow),
      (s.sites.map SiteRow.id).Nodup → t ∈ s.sites → t.id = i →
      (NavigationAPI.updateSite s i q).1 = some (NavigationAPI.applySitePatch s.now q t) ∧
      (NavigationAPI.updateSite s i q).2.sites.map SiteRow.id = s.sites.map SiteRow.id ∧
      (∀ x ∈ s.sites, x.id ≠ i → x ∈ (NavigationAPI.updateSite s i q).2.sites) ∧
      (NavigationAPI.updateSite s i ⟨none, none, none, none, none, none, none⟩).1
        = some { t with updated_at := s.now })
    ∧
    (∀ (now : Nat) (q : SitePatch) (x : SiteRow),
      (NavigationAPI.applySitePatch now q x).id = x.id ∧
      (NavigationAPI.applySitePatch now q x).created_at = x.created_at ∧
      (NavigationAPI.applySitePatch now q x).updated_at = now ∧
      (q.group_id = none → (NavigationAPI.applySitePatch now q x).group_id = x.group_id) ∧
      (∀ v, q.group_id = some v → (NavigationAPI.applySitePatch now q x).group_id = v) ∧
      (q.name = none → (NavigationAPI.applySitePatch now q x).name = x.name) ∧
      (∀ v, q.name = some v → (NavigationAPI.applySitePatch now q x).name = v) ∧
      (q.url = none → (NavigationAPI.applySitePatch now q x).url = x.url) ∧
      (∀ v, q.url = some v → (NavigationAPI.applySitePatch now q x).url = v) ∧
      (q.icon = none → (NavigationAPI.applySitePatch now q x).icon = x.icon) ∧
      (q.description = none →
        (NavigationAPI.applySitePatch now q x).description = x.description) ∧
      (q.notes = none → (NavigationAPI.applySitePatch now q x).notes = x.notes) ∧
      (q.order = none → (NavigationAPI.applySitePatch now q x).order = x.order) ∧
      (∀ v, q.order = some v → (NavigationAPI.applySitePatch now q x).order = v)) := by
  refine ⟨?_, ?_, ?_, ?_⟩
  · intro s i p r hnd hm hr
    have hfil := filter_eq_single (fun g : GroupRow => g.id) s.groups i r hnd hm hr
    refine ⟨?_, ?_, ?_, ?_⟩
    · show ((s.groups.filter (fun x => x.id == i)).map
          (NavigationAPI.applyGroupPatch s.now p)).head? = _
      rw [hfil]
      rfl
    · show (s.groups.map
          (fun x => if x.id = i then NavigationAPI.applyGroupPatch s.now p x else x)).map
            GroupRow.id = _
      rw [List.map_map]
      refine List.map_congr_left ?_
      intro x _
      show (if x.id = i then NavigationAPI.applyGroupPatch s.now p x else x).id = x.id
      split <;> rfl
    · intro x hx hne
      exact List.mem_map.mpr ⟨x, hx, if_neg hne⟩
    · show ((s.groups.filter (fun x => x.id == i)).map
          (NavigationAPI.applyGroupPatch s.now ⟨none, none⟩)).head? = _
      rw [hfil]
      rfl
  · intro now p x
    refine ⟨rfl, rfl, rfl, ?_, ?_, ?_, ?_⟩
    · intro h; simp [NavigationAPI.applyGroupPatch, h]
    · intro v h; simp [NavigationAPI.applyGroupPatch, h]
    · intro h; simp [NavigationAPI.applyGroupPatch, h]
    · intro v h; simp [NavigationAPI.applyGroupPatch, h]
  · intro s i q t hnd hm ht
    have hfil := filter_eq_single (fun u : SiteRow => u.id) s.sites i t hnd hm ht
    refine ⟨?_, ?_, ?_, ?_⟩
    · show ((s.sites.filter (fun x => x.id == i)).map
          (NavigationAPI.applySitePatch s.now q)).head? = _
      rw [hfil]
      rfl
    · show (s.sites.map
          (fun x => if x.id = i then NavigationAPI.applySitePatch s.now q x else x)).map
            SiteRow.id = _
      rw [List.map_map]
      refine List.map_congr_left ?_
      intro x _
      show (if x.id = i then NavigationAPI.applySitePatch s.now q x else x).id = x.id
      split <;> rfl
    · intro x hx hne
      exact List.mem_map.mpr ⟨x, hx, if_neg hne⟩
    · show ((s.sites.filter (fun x => x.id == i)).map
          (NavigationAPI.applySitePatch s.now ⟨none, none, none, none, none, none, none⟩)).head?
        = _
      rw [hfil]
      rfl
  · intro now q x
    refine ⟨rfl, rfl, rfl, ?_, ?_, ?_, ?_, ?_, ?_, ?_, ?_, ?_, ?_, ?_⟩ <;>
      first
        | (intro h; simp [NavigationAPI.applySitePatch, h])
        | (intro v h; simp [NavigationAPI.applySitePatch, h])

/-- Witness for C10 on `sampleStore`: a two-field group patch, the empty
group patch, and a name-only site patch. -/
theorem updatePartial_frame_witness :
    (NavigationAPI.updateGroup sampleStore 1 ⟨some "Z", some 9⟩).1
      = some ⟨1, "Z", 9, 10, 99⟩ ∧
    (NavigationAPI.updateGroup sampleStore 1 ⟨none, none⟩).1 = some ⟨1, "A", 0, 10, 99⟩ ∧
    (NavigationAPI.updateSite sampleStore 2
        ⟨none, some "H2", none, none, none, none, none⟩).1
      = some ⟨2, 1, "H2", "https://h", "", "", "", 1, 10, 99⟩ :=
  have h1 := updatePartial_frame.1 sampleStore 1 ⟨some "Z", some 9⟩ ⟨1, "A", 0, 10, 10⟩
    (by decide) (by decide) (by decide)
  have h2 := updatePartial_frame.2.2.1 sampleStore 2
    ⟨none, some "H2", none, none, none, none, none⟩
    ⟨2, 1, "H", "https://h", "", "", "", 1, 10, 10⟩ (by decide) (by decide) (by decide)
  ⟨h1.1, h1.2.2.2, h2.1⟩

/-! ## The authentication layer

The checked-in sources carry two revisions of `src/api/http.ts`; the
newer one (embedded in `SiteCard.tsx`) extends `NavigationAPI` with the
worker-environment auth configuration and the `login` / `verifyToken` /
`generateToken` methods.  They are embedded below: `btoa`/`atob` are the
platform base64 primitives, modelled on the string's UTF-8 bytes (the
code only feeds them ASCII JSON; JS `btoa` works on latin-1 code units
and throws beyond U+00FF, where the model diverges); time is in whole
seconds (`Math.floor(Date.now() / 1000)`); `JSON.parse ∘ atob` on the
payload segment is modelled by a decoder that is exact on every payload
`generateToken` emits and rejects other strings (foreign JSON bodies
that `JSON.parse` would accept are not produced by this system and no
claim depends on them). -/

/-- JavaScript `a || b` on an optional string: `undefined` and the empty
string are falsy. -/
def jsFalsyOr (v : Option String) (d : String) : String :=
  match v with
  | none => d
  | some s => if s = "" then d else s

/-- The worker environment interface of the auth-aware `http.ts`
(`Env`): the four `AUTH_*` variables, each possibly unset. -/
structure Env where
  AUTH_ENABLED : Option String
  AUTH_USERNAME : Option String
  AUTH_PASSWORD : Option String
  AUTH_SECRET : Option String
deriving DecidableEq, Repr

/-- The auth fields the `NavigationAPI` constructor stores
(`authEnabled`, `username`, `password`, `secret`). -/
structure AuthState where
  authEnabled : Bool
  username : String
  password : String
  secret : String
deriving DecidableEq, Repr

/-- The `NavigationAPI` constructor: `authEnabled = env.AUTH_ENABLED ===
"true"`, credentials default to `""`, the secret to the built-in
development default. -/
def AuthState.ofEnv (e : Env) : AuthState :=
  { authEnabled := e.AUTH_ENABLED == some "true",
    username := jsFalsyOr e.AUTH_USERNAME "",
    password := jsFalsyOr e.AUTH_PASSWORD "",
    secret := jsFalsyOr e.AUTH_SECRET "默认密钥，建议在生产环境中设置" }

namespace NavigationAPI

end NavigationAPI

/-! ## The HTTP router (`functions/api/[[path]].ts`) -/

/-- The routes of the REST surface.  The checked-in router matches the
non-login routes; `loginR` names the login path so that requests to it
can be stated (the router has no case for it). -/
inductive Route where
  | loginR
  | initR
  | groupsList
  | groupOne (id : Nat)
  | sitesList (gid : Option Nat)
  | siteOne (id : Nat)
  | groupOrders
  | siteOrders
  | unknown
deriving DecidableEq, Repr

/-- A request body, already decoded from JSON. -/
inductive ReqBody where
  | empty
  | creds (u p : String)
  | groupBody (name : Option String) (ord : Option Int)
  | groupPatchBody (p : GroupPatch)
  | siteBody (inp : SiteInput)
  | sitePatchBody (p : SitePatch)
  | ordersBody (l : List (Nat × Int))
deriving DecidableEq, Repr

/-- An API request: method, route, body, the bearer token string from
the Authorization header (`none` = missing or malformed), and the
arrival time. -/
structure ApiRequest where
  method : String
  route : Route
  body : ReqBody
  auth : Option String
  now : Nat
deriving DecidableEq, Repr

/-- One Entity Store access performed by a handler. -/
inductive StoreAccess where
  | initTables
  | readGroups
  | readGroup (id : Nat)
  | writeGroups
  | readSites (gid : Option Nat)
  | readSite (id : Nat)
  | writeSites
deriving DecidableEq, Repr

/-- A handler outcome: HTTP status, the store accesses performed, and
the store afterwards. -/
structure ApiResult where
  status : Nat
  accesses : List StoreAccess
  store : Store
deriving DecidableEq, Repr

/-- The route dispatch of `functions/api/[[path]].ts`, each branch
calling the corresponding `NavigationAPI` operation and logging its
store access; unmatched requests — the login path included — get 404 and
touch nothing. -/
def dispatch (req : ApiRequest) (s : Store) : ApiResult :=
  match req.route, req.method, req.body with
  | .initR, "GET", _ => ⟨200, [.initTables], s⟩
  | .groupsList, "GET", _ => ⟨200, [.readGroups], s⟩
  | .groupsList, "POST", .groupBody n o =>
    match NavigationAPI.createGroup s n o with
    | .ok (_, s2) => ⟨200, [.writeGroups], s2⟩
    | .error _ => ⟨500, [.writeGroups], s⟩
  | .groupOne i, "GET", _ => ⟨200, [.readGroup i], s⟩
  | .groupOne i, "PUT", .groupPatchBody p => ⟨200, [.writeGroups], (NavigationAPI.updateGroup s i p).2⟩
  | .groupOne i, "DELETE", _ => ⟨200, [.writeGroups], (NavigationAPI.deleteGroup s i).2⟩
  | .sitesList gid, "GET", _ => ⟨200, [.readSites gid], s⟩
  | .sitesList _, "POST", .siteBody inp =>
    match NavigationAPI.createSite s inp with
    | .ok (_, s2) => ⟨200, [.writeSites], s2⟩
    | .error _ => ⟨500, [.writeSites], s⟩
  | .siteOne i, "GET", _ => ⟨200, [.readSite i], s⟩
  | .siteOne i, "PUT", .sitePatchBody p => ⟨200, [.writeSites], (NavigationAPI.updateSite s i p).2⟩
  | .siteOne i, "DELETE", _ => ⟨200, [.writeSites], (NavigationAPI.deleteSite s i).2⟩
  | .groupOrders, "PUT", .ordersBody l => ⟨200, [.writeGroups], (NavigationAPI.updateGroupOrder s l).2⟩
  | .siteOrders, "PUT", .ordersBody l => ⟨200, [.writeSites], (NavigationAPI.updateSiteOrder s l).2⟩
  | _, _, _ => ⟨404, [], s⟩

/-- The checked-in `onRequest` handler: it constructs the API object
(whose auth fields ride along unused) and routes purely on path and
method — it never reads the Authorization header, never calls
`verifyToken`, and has no login route. -/
def onRequest (_st : AuthState) (req : ApiRequest) (s : Store) : ApiResult :=
  dispatch req s

/-- An auth configuration with the gate switched on. -/
def enabledAuth : AuthState :=
  AuthState.ofEnv ⟨some "true", some "admin", some "pw", some "s3cret"⟩

/-- C2, evaluated at the failing input: with the gate enabled, a GET
/api/groups request with no Authorization header is served — status 200
and a store read — instead of the claimed 401 before any store access;
the login route itself is 404; and the handler's result does not depend
on the auth configuration or the bearer token at all. -/
theorem onRequest_unauthenticated_access :
    (onRequest enabledAuth ⟨"GET", Route.groupsList, ReqBody.empty, none, 100⟩
        sampleStore).status = 200 ∧
    (onRequest enabledAuth ⟨"GET", Route.groupsList, ReqBody.empty, none, 100⟩
        sampleStore).accesses = [StoreAccess.readGroups] ∧
    (onRequest enabledAuth ⟨"POST", Route.loginR, ReqBody.creds "admin" "pw", none, 100⟩
        sampleStore).status = 404 ∧
    (∀ (st st' : AuthState) (tok tok' : Option String) (req : ApiRequest) (s : Store),
      onRequest st { req with auth := tok } s = onRequest st' { req with auth := tok' } s) := by
  refine ⟨rfl, rfl, rfl, ?_⟩
  intro st st' tok tok' req s
  rfl

/-- The client's sort mode (`SortMode` enum in `App.tsx`). -/
inductive SortMode where
  | idle
  | groupSort
  | siteSort
deriving DecidableEq, Repr

/-- A group with its sites, as held in the client's `groups` state. -/
structure GroupWithSites where
  group : GroupRow
  sites : List SiteRow
deriving DecidableEq, Repr

/-- The client component state of `App.tsx` (the `groups`, `sortMode` and
`currentSortingGroupId` useState hooks; a group entry's `sites` doubles
as the GroupCard-local staged site list). -/
structure ClientState where
  groups : List GroupWithSites
  mode : SortMode
  currentSortingGroupId : Option Nat
deriving DecidableEq, Repr

/-- A network call the client can issue. -/
inductive ApiCall where
  | getGroupsC
  | getSitesC (gid : Option Nat)
  | updateGroupOrderC (b : List (Nat × Int))
  | updateSiteOrderC (b : List (Nat × Int))
deriving DecidableEq, Repr

/-- The whole client/server world: the committed server store, the log of
network calls issued, and the client component state. -/
structure World where
  server : Store
  calls : List ApiCall
  client : ClientState
deriving DecidableEq, Repr

/-- dnd-kit's `arrayMove`: remove the element at `i` and reinsert it at
`j`. -/
def arrayMove (l : List α) (i j : Nat) : List α :=
  match l.get? i with
  | none => l
  | some x => (l.eraseIdx i).insertIdx j x

/-- A state update that touches only the client component (a `setState`):
the server and the call log are untouched by construction. -/
def onClient (f : ClientState → ClientState) (w : World) : World :=
  { w with client := f w.client }

namespace App

/-- `startGroupSort`: enter group-reorder mode. -/
def startGroupSort : World → World :=
  onClient (fun c => { c with mode := SortMode.groupSort, currentSortingGroupId := none })

/-- `startSiteSort(groupId)`: enter site-reorder mode for one group. -/
def startSiteSort (g : Nat) : World → World :=
  onClient (fun c => { c with mode := SortMode.siteSort, currentSortingGroupId := some g })

/-- `cancelSort` (dnd-kit `App.tsx`): drop back to idle; no fetch, no
persistence call. -/
def cancelSort : World → World :=
  onClient (fun c => { c with mode := SortMode.idle, currentSortingGroupId := none })

/-- `handleDragEnd` on the group list: if there is a drop target and it
differs from the dragged item, find both indices and `arrayMove` the
client group list; otherwise do nothing. -/
def handleDragEnd (active : Nat) (over : Option Nat) : World → World :=
  onClient (fun c =>
    match over with
    | none => c
    | some ov =>
      if active ≠ ov then
        match c.groups.findIdx? (fun gw => gw.group.id == active),
              c.groups.findIdx? (fun gw => gw.group.id == ov) with
        | some oldIndex, some newIndex =>
          { c with groups := arrayMove c.groups oldIndex newIndex }
        | _, _ => c
      else c)

/-- `handleSiteDragEnd` in `GroupCard` for group `g`: permute that
group's staged site list only. -/
def handleSiteDragEnd (g : Nat) (active : Nat) (over : Option Nat) : World → World :=
  onClient (fun c =>
    match over with
    | none => c
    | some ov =>
      if active ≠ ov then
        { c with groups := c.groups.map (fun gw =>
            if gw.group.id == g then
              match gw.sites.findIdx? (fun t => t.id == active),
                    gw.sites.findIdx? (fun t => t.id == ov) with
              | some oldIndex, some newIndex =>
                { gw with sites := arrayMove gw.sites oldIndex newIndex }
              | _, _ => gw
            else gw) }
      else c)

end App

/-- A drag event of a reorder session: a group drag, or a site drag
within group `g`. -/
inductive DragEv where
  | group (active : Nat) (over : Option Nat)
  | site (g : Nat) (active : Nat) (over : Option Nat)
deriving DecidableEq, Repr

/-- Deliver one drag event to the world. -/
def dragStep (e : DragEv) (w : World) : World :=
  match e with
  | .group a o => App.handleDragEnd a o w
  | .site g a o => App.handleSiteDragEnd g a o w

/-- Which reorder session is opened. -/
inductive SessionStart where
  | groups
  | sites (g : Nat)
deriving DecidableEq, Repr

/-- Open a reorder session. -/
def startSession : SessionStart → World → World
  | .groups => App.startGroupSort
  | .sites g => App.startSiteSort g

/-- `fetchData`'s view of the committed server state: the ordered group
list, each group paired with its ordered sites. -/
def fetchView (s : Store) : List GroupWithSites :=
  (NavigationAPI.getGroups s).map
    (fun g => ⟨g, NavigationAPI.getSites s (some g.id)⟩)

theorem onClient_server (f : ClientState → ClientState) (w : World) :
    (onClient f w).server = w.server := rfl

theorem onClient_calls (f : ClientState → ClientState) (w : World) :
    (onClient f w).calls = w.calls := rfl

theorem dragStep_frame (e : DragEv) (w : World) :
    (dragStep e w).server = w.server ∧ (dragStep e w).calls = w.calls := by
  cases e with
  | group a o => exact ⟨rfl, rfl⟩
  | site g a o => exact ⟨rfl, rfl⟩

theorem dragSteps_frame (evs : List DragEv) :
    ∀ (w : World),
      (evs.foldl (fun a e => dragStep e a) w).server = w.server ∧
      (evs.foldl (fun a e => dragStep e a) w).calls = w.calls := by
  induction evs with
  | nil => intro w; exact ⟨rfl, rfl⟩
  | cons e es ih =>
    intro w
    have h1 := dragStep_frame e w
    have h2 := ih (dragStep e w)
    exact ⟨h2.1.trans h1.1, h2.2.trans h1.2⟩

/-- C9: during a reorder session — enter either mode, deliver any drag
events, then Cancel — the drags permute only the client copy: the
committed server store is unchanged at every point of the session, no
network call of any kind (in particular no persistence call) is issued,
and a fetch after Cancel returns exactly the pre-drag committed view. -/
theorem reorder_session_staged :
    ∀ (w : World) (st : SessionStart) (evs : List DragEv),
      ((evs.foldl (fun a e => dragStep e a) (startSession st w)).server = w.server) ∧
      ((evs.foldl (fun a e => dragStep e a) (startSession st w)).calls = w.calls) ∧
      ((App.cancelSort (evs.foldl (fun a e => dragStep e a) (startSession st w))).server
        = w.server) ∧
      ((App.cancelSort (evs.foldl (fun a e => dragStep e a) (startSession st w))).calls
        = w.calls) ∧
      (fetchView (App.cancelSort
          (evs.foldl (fun a e => dragStep e a) (startSession st w))).server
        = fetchView w.server) := by
  intro w st evs
  have hstart : (startSession st w).server = w.server ∧ (startSession st w).calls = w.calls := by
    cases st with
    | groups => exact ⟨rfl, rfl⟩
    | sites g => exact ⟨rfl, rfl⟩
  have hfold := dragSteps_frame evs (startSession st w)
  have hs : (evs.foldl (fun a e => dragStep e a) (startSession st w)).server = w.server :=
    hfold.1.trans hstart.1
  have hc : (evs.foldl (fun a e => dragStep e a) (startSession st w)).calls = w.calls :=
    hfold.2.trans hstart.2
  refine ⟨hs, hc, hs, hc, ?_⟩
  show fetchView (evs.foldl (fun a e => dragStep e a) (startSession st w)).server = _
  rw [hs]
